import Mathlib

/-!
Verification of the Ravel load-balancer control plane core against its
natural-language specification.  The Go sources embedded here are:

* `pkg/haproxy/haproxy.go` — the HAProxy per-VIP process supervisor
  (`HAProxySetManager`, `HAProxyManager`);
* the BGP director worker (`bgpserver`, package `bgp`);
* the realserver worker (`realserver`, package `realserver`).

Pure functions are translated directly; the event loops (`watches`,
`periodic`) become explicit step functions over worker-state records, with
the fallible kernel abstractions (`system.IP`, `system.IPVS`,
`iptables.IPTables`, the BGP `Controller`) resolved by environment records
carried on each event.  Time is a monotone `Nat` clock; each event carries
its `time.Now()` value.
-/

namespace Ravel

/-! ### String sorting

Go's `sort.Sort(sort.StringSlice(v))` sorts strings in bytewise
lexicographic order.  We model it with an insertion sort over the same
order on code points; for the sortedness facts used here the choice of
sorting algorithm is irrelevant (any sort agrees on lists of strings). -/

/-- Bytewise lexicographic comparison of character lists, matching Go's
string ordering on ASCII data. -/
def charsLe : List Char → List Char → Bool
  | [], _ => true
  | _ :: _, [] => false
  | a :: as, b :: bs =>
    if a.toNat < b.toNat then true
    else if b.toNat < a.toNat then false
    else charsLe as bs

/-- Lexicographic order on strings (Go `s1 <= s2`). -/
def strLeb (a b : String) : Bool := charsLe a.data b.data

/-- Insert a string into an already sorted list. -/
def insertSorted (x : String) : List String → List String
  | [] => [x]
  | y :: ys => if strLeb x y then x :: y :: ys else y :: insertSorted x ys

/-- Model of Go's `sort.Sort(sort.StringSlice(v))`. -/
def sortStr : List String → List String
  | [] => []
  | x :: xs => insertSorted x (sortStr xs)

/-! ### Shared data model -/

/-- Outcome of a fallible Go operation: normal return, returned error, or
runtime panic. -/
inductive Outcome where
  | ok
  | err
  | panicked
deriving DecidableEq, Repr

/-- Go struct `types.ServiceRef` (fields Namespace, Service, PortName). -/
structure ServiceRef where
  ns : String
  service : String
  portName : String
deriving DecidableEq, Repr

/-- A PortMap maps a listen-port string to a `ServiceRef`; Go maps become
association lists here (iteration order is explicit). -/
abbrev PortMap := List (String × ServiceRef)

/-- Go struct `types.ClusterConfig`: `Config` maps IPv4 VIP → PortMap,
`Config6` the same for IPv6, `IPV6` pairs IPv4 VIPs with IPv6 VIPs. -/
structure ClusterConfig where
  config : List (String × PortMap)
  config6 : List (String × PortMap)
  ipv6 : List (String × String)
deriving DecidableEq, Repr

/-- Go struct `types.Node`, restricted to the stable fields the workers
read (Name, Addresses, Ready). -/
structure Node where
  name : String
  addresses : List String
  ready : Bool
deriving DecidableEq, Repr

abbrev NodesList := List Node

/-- One chain of a parsed `iptables-save` table (Go `iptables.Chain`);
only the `Rules` field is read by the code embedded here. -/
structure Chain where
  rules : List String
deriving DecidableEq, Repr

/-- A rules set keyed by chain name (Go `map[string]*Chain`). -/
abbrev RulesSet := List (String × Chain)

/-- Lookup of a chain in a rules set; `none` models a missing map key. -/
def chainRules (rs : RulesSet) (c : String) : Option (List String) :=
  (rs.find? (fun p => p.1 = c)).map (fun p => p.2.rules)

/-! ### HAProxy supervisor (pkg/haproxy/haproxy.go) -/

/-- Go struct `templateContext` (haproxy.go): the per-port data handed to
the config template.  Ports are uint16 in Go and never overflow here, so
Nat suffices. -/
structure TemplateContext where
  port : Nat
  source : String
  dest : String
deriving DecidableEq, Repr

/-- The zero value of `templateContext`, left in the slice when the render
loop skips an index. -/
def zeroContext : TemplateContext := ⟨0, "", ""⟩

/-- Go struct `haproxy.VIPConfig`. -/
structure VIPConfig where
  addr6 : String
  serviceAddrs : List String
  listenPorts : List Nat
  proxyMode : List Bool
deriving Repr

/-- Loop body of `HAProxyManager.render` (haproxy.go:368-386), at the
level of the template data slice `d`.  `d` is preallocated with
`len(ports)` zero values; for each index the Go loop either skips the
entry when `i == len(serviceAddrs)` (leaving the zero value and logging a
warning) or assigns from `serviceAddrs[i]`.  Indexing `serviceAddrs[i]`
with `i > len(serviceAddrs)` is an out-of-range runtime panic, modelled as
`none`. -/
def renderFrom (serviceAddrs : List String) (listenAddr : String) :
    Nat → List Nat → Option (List TemplateContext)
  | _, [] => some []
  | i, p :: rest =>
    if i = serviceAddrs.length then
      (renderFrom serviceAddrs listenAddr (i + 1) rest).map (fun d => zeroContext :: d)
    else
      match serviceAddrs.get? i with
      | none => none
      | some dest =>
        (renderFrom serviceAddrs listenAddr (i + 1) rest).map
          (fun d => (⟨p, listenAddr, dest⟩ : TemplateContext) :: d)

/-- `HAProxyManager.render` (haproxy.go:368-386).  The rendered bytes are
modelled by the template data itself: the template `haproxyConfig` is a
fixed constant and its execution a deterministic function of `d`, so the
data slice is a faithful stand-in for the produced configuration. -/
def render (serviceAddrs : List String) (listenAddr : String)
    (ports : List Nat) : Option (List TemplateContext) :=
  renderFrom serviceAddrs listenAddr 0 ports

/-- In-memory fields of Go `HAProxyManager` read and written by `Reload`
(haproxy.go:209-225).  A nil byte slice for `rendered` is the empty
list. -/
structure HAProxyManager where
  listenAddr : String
  serviceAddrs : List String
  ports : List Nat
  rendered : List TemplateContext
deriving DecidableEq, Repr

/-- Resolution of the fallible externals touched by `Reload`: the config
file write, the SIGHUP delivery, and the write performed by `unroll`. -/
structure ReloadEnv where
  writeOk : Bool
  sighupOk : Bool
  unrollWriteOk : Bool
deriving DecidableEq, Repr

/-- Result of a `Reload` call: the updated manager, the contents of the
instance's config file on disk, whether a SIGHUP delivery was attempted,
and the outcome. -/
structure ReloadOut where
  mgr : HAProxyManager
  disk : List TemplateContext
  sighupSent : Bool
  result : Outcome
deriving DecidableEq, Repr

/-- `HAProxyManager.Reload` (haproxy.go:336-364) together with `unroll`
(haproxy.go:412-416).  `disk` is the contents of
`configDir/listenAddr.conf`.  Writes are modelled atomically: a failed
write leaves the file unchanged.  On a SIGHUP failure `unroll` rewrites
the bytes held in `rendered`; if that write fails too, `sendError` fires
and the file keeps the new bytes. -/
def reload (h : HAProxyManager) (disk : List TemplateContext)
    (env : ReloadEnv) (ports : List Nat) : ReloadOut :=
  if ports = h.ports then
    ⟨h, disk, false, .ok⟩
  else
    match render h.serviceAddrs h.listenAddr ports with
    | none => ⟨h, disk, false, .panicked⟩
    | some b =>
      if !env.writeOk then ⟨h, disk, false, .err⟩
      else if !env.sighupOk then
        ⟨h, if env.unrollWriteOk then h.rendered else b, true, .err⟩
      else
        ⟨{ h with rendered := b, ports := ports }, b, true, .ok⟩

/-- `NewHAProxy` (haproxy.go:233-264): render a bootstrap configuration,
write it to disk, hand back the manager (the child process spawn is not
modelled).  The bootstrap write does NOT set `rendered`: the Go code
assigns `h.rendered` only inside `Reload`, so a fresh manager carries an
empty `rendered`.  A render fault or write failure yields `none`. -/
def newHAProxy (listenAddr : String) (serviceAddrs : List String)
    (ports : List Nat) (writeOk : Bool) :
    Option (HAProxyManager × List TemplateContext) :=
  match render serviceAddrs listenAddr ports with
  | none => none
  | some b =>
    if writeOk then
      some ({ listenAddr := listenAddr, serviceAddrs := serviceAddrs,
              ports := ports, rendered := [] }, b)
    else none

/-- Association-list update, modelling assignment into a Go map. -/
def updateAssoc {α : Type} : List (String × α) → String → α → List (String × α)
  | [], a, v => [(a, v)]
  | (k, w) :: rest, a, v =>
    if k = a then (a, v) :: rest else (k, w) :: updateAssoc rest a v

/-- Association-list lookup, modelling a Go map read. -/
def lookupAssoc {α : Type} (l : List (String × α)) (a : String) : Option α :=
  (l.find? (fun p => p.1 = a)).map (fun p => p.2)

/-- The `sources` map of Go `HAProxySetManager` (haproxy.go:50-67); each
instance is paired with the contents of its config file on disk.  The
cancel-funcs map carries no reconcilable state and is not modelled. -/
structure HAProxySetState where
  sources : List (String × (HAProxyManager × List TemplateContext))
deriving DecidableEq, Repr

/-- Result of `HAProxySetManager.Configure`. -/
structure ConfigureOut where
  set : HAProxySetState
  sighupSent : Bool
  result : Outcome
deriving DecidableEq, Repr

/-- `HAProxySetManager.Configure` (haproxy.go:143-167): create the
instance if absent (via `NewHAProxy`), then call `Reload` on it with the
config's listen ports. -/
def configureSet (s : HAProxySetState) (env : ReloadEnv) (v : VIPConfig) :
    ConfigureOut :=
  match lookupAssoc s.sources v.addr6 with
  | some (m, d) =>
    let out := reload m d env v.listenPorts
    ⟨⟨updateAssoc s.sources v.addr6 (out.mgr, out.disk)⟩, out.sighupSent, out.result⟩
  | none =>
    match newHAProxy v.addr6 v.serviceAddrs v.listenPorts env.writeOk with
    | none => ⟨s, false, .err⟩
    | some (m, d) =>
      let s1 := updateAssoc s.sources v.addr6 (m, d)
      let out := reload m d env v.listenPorts
      ⟨⟨updateAssoc s1 v.addr6 (out.mgr, out.disk)⟩, out.sighupSent, out.result⟩

/-- `HAProxySetManager.GetRemovals` (haproxy.go:91-117): collect the
configured addresses, then keep each one that matches no inbound
address. -/
def getRemovals (s : HAProxySetState) (v6addrs : List String) : List String :=
  let configured := s.sources.map (fun p => p.1)
  configured.filter (fun i => !(v6addrs.contains i))

/-- Go struct `HAProxyError` (haproxy.go:198-203), the payload sent on the
supervisor's error channel (the wrapped error value is elided). -/
structure HAProxyError where
  source : String
  dest : List String
  ports : List Nat
deriving DecidableEq, Repr

/-- A bounded Go channel of `HAProxyError` values: capacity and current
buffer. -/
structure ErrChan where
  capacity : Nat
  buf : List HAProxyError
deriving DecidableEq, Repr

/-- Semantics of a non-blocking send on a buffered Go channel: the `select`
with a `default` arm succeeds exactly when the buffer has room, and never
blocks. -/
def chanTrySend (c : ErrChan) (m : HAProxyError) : Option ErrChan :=
  if c.buf.length < c.capacity then some ⟨c.capacity, c.buf ++ [m]⟩ else none

/-- Result of `sendError`: either the message was enqueued or the manager
panicked. -/
inductive SendErrorResult where
  | sent (c : ErrChan)
  | panicked
deriving DecidableEq, Repr

/-- `HAProxyManager.sendError` (haproxy.go:418-430): non-blocking send of
the error message on `errChan`; the `default` arm panics. -/
def sendError (c : ErrChan) (m : HAProxyError) : SendErrorResult :=
  match chanTrySend c m with
  | some c2 => .sent c2
  | none => .panicked

/-- The error channel as allocated by `NewHAProxySet` (haproxy.go:76):
`make(chan HAProxyError, 100)`. -/
def newHAProxySetErrChan : ErrChan := ⟨100, []⟩

/-! ### Address reconciliation shared by both workers

Both `bgpserver.setAddresses` and `realserver.setAddresses` pull the
configured addresses from the loopback device, compute
`Compare(configured, desired)` through the `system.IP` abstraction, then
apply the removals (`Del`) followed by the additions (`Add`), aborting on
the first failing call.  `Compare` and the per-address kernel calls are
resolved by the environment. -/

/-- Apply a list of `Del` calls to the device state, stopping at the first
failure; a failed `Del` leaves the device unchanged for that address. -/
def applyDels (delOk : String → Bool) :
    List String → List String → List String × Bool
  | lb, [] => (lb, true)
  | lb, a :: rest =>
    if delOk a then applyDels delOk (lb.erase a) rest else (lb, false)

/-- Apply a list of `Add` calls to the device state, stopping at the first
failure. -/
def applyAdds (addOk : String → Bool) :
    List String → List String → List String × Bool
  | lb, [] => (lb, true)
  | lb, a :: rest =>
    if addOk a then applyAdds addOk (lb ++ [a]) rest else (lb, false)

/-- Shared body of `bgpserver.setAddresses` (director, lines 442-480) and
`realserver.setAddresses` (lines 455-486): Get, Compare, apply removals,
apply additions.  Returns the resulting device state and whether every
kernel call succeeded. -/
def setAddressesOn (getOk : Bool)
    (compare : List String → List String → List String × List String)
    (delOk addOk : String → Bool)
    (loopback : List String) (cfg : ClusterConfig) : List String × Bool :=
  if !getOk then (loopback, false)
  else
    let desired := cfg.config.map (fun p => p.1)
    let ra := compare loopback desired
    let d := applyDels delOk loopback ra.1
    if !d.2 then (d.1, false)
    else applyAdds addOk d.1 ra.2

/-! ### Realserver parity check (realserver.checkConfigParity) -/

/-- `realserver.checkConfigParity` (realserver, lines 402-453).  The
results of the kernel calls are parameters: `loopbackGet` is
`ipLoopback.Get()`, `saveResult` is `iptables.Save()`, `generateResult` is
`iptables.GenerateRules(config)`; `none` marks a returned error, which the
Go code propagates as `(false, err)` — modelled as an overall `none`.
Note the code sorts the desired VIP list and both rule lists, but compares
the loopback address list in the order the device reported it. -/
def checkConfigParity (config : Option ClusterConfig)
    (loopbackGet : Option (List String))
    (saveResult : Option RulesSet)
    (generateResult : Option RulesSet)
    (baseChain : String) : Option Bool :=
  match config with
  | none => some true
  | some cfg =>
    match loopbackGet with
    | none => none
    | some addresses =>
      let vips := sortStr (cfg.config.map (fun p => p.1))
      match saveResult with
      | none => none
      | some existing =>
        let existingRules := sortStr ((chainRules existing baseChain).getD [])
        match generateResult with
        | none => none
        | some generated =>
          let generatedRules := sortStr ((chainRules generated baseChain).getD [])
          some (vips == addresses && existingRules == generatedRules)

/-- The parity predicate as the specification words it: sorted loopback
addresses equal sorted desired VIPs, and sorted existing base-chain rules
equal sorted generated base-chain rules; vacuously true without a config.
Kept separate from `checkConfigParity` (the code) to compare the two. -/
def specCheckConfigParity (config : Option ClusterConfig)
    (addresses : List String) (existing generated : RulesSet)
    (baseChain : String) : Bool :=
  match config with
  | none => true
  | some cfg =>
    (sortStr addresses == sortStr (cfg.config.map (fun p => p.1))) &&
    (sortStr ((chainRules existing baseChain).getD []) ==
      sortStr ((chainRules generated baseChain).getD []))

/-! ### Director worker (bgpserver) -/

/-- Mutable worker state of Go `bgpserver` relevant to the reconciliation
loop, together with the kernel world it acts on: `loopback` is the set of
addresses bound on the loopback device and `now` the monotone wall clock
(the time of the last processed event). -/
structure DirState where
  config : Option ClusterConfig
  nodes : NodesList
  newConfig : Bool
  lastInboundUpdate : Nat
  lastReconfigure : Nat
  now : Nat
  loopback : List String
deriving DecidableEq, Repr

/-- Worker state as built by `NewBGPWorker`: no config, empty nodes,
`newConfig` unset, zero times, nothing on the loopback. -/
def dirInit : DirState := ⟨none, [], false, 0, 0, 0, []⟩

/-- Resolution of the kernel abstractions for one director reconcile
attempt: `ipLoopback.Get`, `ipvs.CheckConfigParity`, `system.IP.Compare`,
per-address `Del`/`Add`, `bgp.Set` and `ipvs.SetIPVS`. -/
structure DirEnv where
  getOk : Bool
  parity : Option Bool
  compare : List String → List String → List String × List String
  delOk : String → Bool
  addOk : String → Bool
  bgpOk : Bool
  ipvsOk : Bool

/-- `bgpserver.configure` (director, lines 290-323): setAddresses, then
`bgp.Set` (additive only), then `ipvs.SetIPVS`; any error aborts, and only
full success records `lastReconfigure := t` (the `time.Now()` of this
attempt).  Dereferencing a nil config is the Go nil-pointer panic. -/
def dirConfigure (t : Nat) (env : DirEnv) (s : DirState) : DirState × Outcome :=
  match s.config with
  | none => (s, .panicked)
  | some cfg =>
    let r := setAddressesOn env.getOk env.compare env.delOk env.addOk s.loopback cfg
    let s1 := { s with loopback := r.1 }
    if !r.2 then (s1, .err)
    else if !env.bgpOk then (s1, .err)
    else if !env.ipvsOk then (s1, .err)
    else ({ s1 with lastReconfigure := t }, .ok)

/-- `bgpserver.performReconfigure` (director, lines 604-642).  Returns the
new state and, when the parity check was reached, `some b` where `b` is
the value `configReady()` handed to `ipvs.CheckConfigParity` — the flag is
read and cleared at that point and only at that point. -/
def performReconfigure (t : Nat) (env : DirEnv) (s : DirState) :
    DirState × Option Bool :=
  if s.lastInboundUpdate < s.lastReconfigure then (s, none)
  else if !env.getOk then (s, none)
  else
    let ready := s.newConfig
    let s1 := { s with newConfig := false }
    match env.parity with
    | none => (s1, some ready)
    | some true => (s1, some ready)
    | some false => ((dirConfigure t env s1).1, some ready)

/-- One event consumed by the director's goroutines: a receive on
`nodeChan` or `configChan` in `watches`, the 2 s parity-gated tick, or the
30 s unconditional reconfigure tick in `periodic`. -/
inductive DirEvent where
  | recvNodes (t : Nat) (nodes : NodesList)
  | recvConfig (t : Nat) (cfg : ClusterConfig)
  | bgpTick (t : Nat) (env : DirEnv)
  | forceTick (t : Nat) (env : DirEnv)

/-- Timestamp carried by an event. -/
def DirEvent.time : DirEvent → Nat
  | .recvNodes t _ => t
  | .recvConfig t _ => t
  | .bgpTick t _ => t
  | .forceTick t _ => t

/-- One step of the director: the `watches` select arms (lines 546-587)
and the `periodic` ticker arms (lines 355-401).  `q` is
`types.NodesEqual`, an external structural comparison kept abstract.  The
second component reports the `configReady()` value consumed by a reached
parity check, `none` otherwise. -/
def dirStep (q : NodesList → NodesList → Bool) (s : DirState) (e : DirEvent) :
    DirState × Option Bool :=
  match e with
  | .recvNodes t nodes =>
    if q s.nodes nodes then ({ s with now := t }, none)
    else ({ s with nodes := nodes, lastInboundUpdate := t, now := t }, none)
  | .recvConfig t cfg =>
    ({ s with config := some cfg, newConfig := true,
              lastInboundUpdate := t, now := t }, none)
  | .bgpTick t env =>
    let r := performReconfigure t env s
    ({ r.1 with now := t }, r.2)
  | .forceTick t env =>
    ({ (dirConfigure t env s).1 with now := t }, none)

/-- Run a list of events through the director. -/
def dirRun (q : NodesList → NodesList → Bool) (s : DirState) :
    List DirEvent → DirState
  | [] => s
  | e :: es => dirRun q (dirStep q s e).1 es

/-- The per-event consumption reports of a run, aligned with the event
list. -/
def dirReports (q : NodesList → NodesList → Bool) (s : DirState) :
    List DirEvent → List (Option Bool)
  | [] => []
  | e :: es => (dirStep q s e).2 :: dirReports q (dirStep q s e).1 es

/-- Chronological trace: event timestamps are nondecreasing starting from
the clock value `t0`. -/
def dirChron (t0 : Nat) : List DirEvent → Prop
  | [] => True
  | e :: es => t0 ≤ e.time ∧ dirChron e.time es

/-! ### Realserver worker -/

/-- Mutable worker state of Go `realserver` relevant to the reconciliation
loop, plus the loopback device state and the monotone clock. -/
structure RealState where
  config : Option ClusterConfig
  node : Node
  lastInboundUpdate : Nat
  lastReconfigure : Nat
  now : Nat
  loopback : List String
deriving DecidableEq, Repr

/-- Worker state as built by `NewRealServer`: no config, zero-valued self
node, zero times. -/
def rsInit : RealState := ⟨none, ⟨"", [], false⟩, 0, 0, 0, []⟩

/-- Resolution of the kernel abstractions for one realserver reconcile
attempt: loopback Get, `iptables.Save`, `iptables.GenerateRules` (used by
the parity check), `iptables.GenerateRulesForNodes` (used by configure),
`iptables.Merge`, `iptables.Restore`, plus Compare/Del/Add as for the
director. -/
structure RsEnv where
  getOk : Bool
  saveResult : Option RulesSet
  generateParityResult : Option RulesSet
  generateResult : Option RulesSet
  mergeResult : Option (RulesSet × Nat)
  restoreOk : Bool
  baseChain : String
  compare : List String → List String → List String × List String
  delOk : String → Bool
  addOk : String → Bool

/-- Body of `realserver.configure` after the parity block (lines 355-399):
setAddresses, Save, GenerateRulesForNodes, Merge, Restore, aborting on the
first error.  Dereferencing a nil config in setAddresses is the Go
nil-pointer panic. -/
def rsConfigureBody (s : RealState) (env : RsEnv) : RealState × Outcome :=
  match s.config with
  | none => (s, .panicked)
  | some cfg =>
    let r := setAddressesOn env.getOk env.compare env.delOk env.addOk s.loopback cfg
    let s1 := { s with loopback := r.1 }
    if !r.2 then (s1, .err)
    else
      match env.saveResult with
      | none => (s1, .err)
      | some _ =>
        match env.generateResult with
        | none => (s1, .err)
        | some _ =>
          match env.mergeResult with
          | none => (s1, .err)
          | some _ => if env.restoreOk then (s1, .ok) else (s1, .err)

/-- `realserver.configure(force)` (lines 341-353): unless forced, run
`checkConfigParity` and return early on a parity error or on parity; the
100 ms caller treats the parity early-return as success.
`lastReconfigure` is never written here — the caller's fast tick records
it. -/
def rsConfigure (force : Bool) (s : RealState) (env : RsEnv) :
    RealState × Outcome :=
  if force then rsConfigureBody s env
  else
    match checkConfigParity s.config
        (if env.getOk then some s.loopback else none)
        env.saveResult env.generateParityResult env.baseChain with
    | none => (s, .err)
    | some true => (s, .ok)
    | some false => rsConfigureBody s env

/-- One event consumed by the realserver's goroutines: the two `watches`
receives, the 100 ms parity-gated tick, the 60 s unconditional tick, and
the 10 min forced tick. -/
inductive RsEvent where
  | recvNodes (t : Nat) (nodes : NodesList)
  | recvConfig (t : Nat) (cfg : ClusterConfig)
  | fastTick (t : Nat) (env : RsEnv)
  | slowTick (t : Nat) (env : RsEnv)
  | forceTick (t : Nat) (env : RsEnv)

/-- Timestamp carried by a realserver event. -/
def RsEvent.time : RsEvent → Nat
  | .recvNodes t _ => t
  | .recvConfig t _ => t
  | .fastTick t _ => t
  | .slowTick t _ => t
  | .forceTick t _ => t

/-- One step of the realserver: the `watches` select arms (lines 204-252)
and the `periodic` ticker arms (lines 255-339).  `q` is `types.NodeEqual`
kept abstract, `nm` the worker's node name, `fr` the `forcedReconfigure`
flag.  On the fast tick the skip condition, the nil-config/empty-node
guard, and the success-only `lastReconfigure := start` assignment follow
the code; the 60 s and 10 min arms call configure but never touch
`lastReconfigure`. -/
def rsStep (q : Node → Node → Bool) (fr : Bool) (nm : String)
    (s : RealState) (e : RsEvent) : RealState :=
  match e with
  | .recvNodes t nodes =>
    match nodes.find? (fun n => n.name = nm) with
    | none => { s with now := t }
    | some n =>
      if q s.node n then { s with now := t }
      else { s with node := n, lastInboundUpdate := t, now := t }
  | .recvConfig t cfg =>
    { s with config := some cfg, lastInboundUpdate := t, now := t }
  | .fastTick t env =>
    if s.lastInboundUpdate < s.lastReconfigure then { s with now := t }
    else if s.config = none ∨ s.node.name = "" then { s with now := t }
    else
      let r := rsConfigure false s env
      if r.2 = .ok then { r.1 with lastReconfigure := t, now := t }
      else { r.1 with now := t }
  | .slowTick t env => { (rsConfigure false s env).1 with now := t }
  | .forceTick t env =>
    if fr then { (rsConfigure true s env).1 with now := t }
    else { s with now := t }

/-- Run a list of events through the realserver. -/
def rsRun (q : Node → Node → Bool) (fr : Bool) (nm : String)
    (s : RealState) : List RsEvent → RealState
  | [] => s
  | e :: es => rsRun q fr nm (rsStep q fr nm s e) es

/-- Chronological realserver trace. -/
def rsChron (t0 : Nat) : List RsEvent → Prop
  | [] => True
  | e :: es => t0 ≤ e.time ∧ rsChron e.time es

/-- An event that the director's `watches` loop accepts as an inbound
update: any config receive, or a node receive that fails the
`NodesEqual` comparison. -/
def dirAccepted (q : NodesList → NodesList → Bool) (s : DirState) :
    DirEvent → Prop
  | .recvConfig _ _ => True
  | .recvNodes _ nodes => q s.nodes nodes = false
  | _ => False

/-- An event that the realserver's `watches` loop accepts as an inbound
update: any config receive, or a node receive whose self entry is found
and differs from the stored node. -/
def rsAccepted (q : Node → Node → Bool) (nm : String) (s : RealState) :
    RsEvent → Prop
  | .recvConfig _ _ => True
  | .recvNodes _ nodes =>
    ∃ n, nodes.find? (fun x => x.name = nm) = some n ∧ q s.node n = false
  | _ => False

/-! ### Trace predicates for the one-shot configReady flag -/

/-- Position `i` of the trace is a config arrival. -/
@[reducible] def arrivalAt (es : List DirEvent) (i : Nat) : Prop :=
  ∃ t cfg, es.get? i = some (DirEvent.recvConfig t cfg)

/-- No event strictly between positions `i` and `j` reaches the parity
check (no consumption report). -/
@[reducible] def silentBetween (q : NodesList → NodesList → Bool) (s : DirState)
    (es : List DirEvent) (i j : Nat) : Prop :=
  ∀ k, i < k → k < j → (dirReports q s es).get? k = some none

/-- No event before position `j` reaches the parity check. -/
@[reducible] def silentBefore (q : NodesList → NodesList → Bool) (s : DirState)
    (es : List DirEvent) (j : Nat) : Prop :=
  ∀ k, k < j → (dirReports q s es).get? k = some none

/-- A fresh config is pending at position `j`: either some arrival since
the last consuming parity check before `j`, or the flag was set in the
start state and never consumed. -/
@[reducible] def freshBefore (q : NodesList → NodesList → Bool) (s : DirState)
    (es : List DirEvent) (j : Nat) : Prop :=
  (∃ i, i < j ∧ arrivalAt es i ∧ silentBetween q s es i j) ∨
    (s.newConfig = true ∧ silentBefore q s es j)

/-! ## Theorems -/

/-- C1, counterexample.  Take a config with VIPs 10.10.0.1 and 10.10.0.2,
a loopback device reporting them in the opposite order, and empty
base-chain rules on both sides.  The sorted loopback addresses equal the
sorted desired VIPs and the rules agree, so the claim says parity holds; the
code compares the sorted VIP list against the address list as the device
returned it and reports `false`. -/
theorem c1_checkConfigParity_counterexample :
    checkConfigParity (some ⟨[("10.10.0.1", []), ("10.10.0.2", [])], [], []⟩)
        (some ["10.10.0.2", "10.10.0.1"]) (some []) (some []) "RAVEL" =
      some false ∧
    specCheckConfigParity (some ⟨[("10.10.0.1", []), ("10.10.0.2", [])], [], []⟩)
        ["10.10.0.2", "10.10.0.1"] [] [] "RAVEL" = true := by
  decide

/-- C1, amended.  `checkConfigParity` returns true when `config == nil`;
otherwise (all kernel calls succeeding) it returns true exactly when the
loopback address list AS RETURNED BY THE DEVICE equals the sorted desired
VIP list — so the device list must itself be sorted — and the sorted
existing rules in the iptables base chain equal the sorted generated rules
in that chain. -/
theorem c1_checkConfigParity_characterization (cfg : ClusterConfig)
    (g : Option (List String)) (sv gn : Option RulesSet)
    (addresses : List String) (existing generated : RulesSet)
    (baseChain : String) :
    checkConfigParity none g sv gn baseChain = some true ∧
    (checkConfigParity (some cfg) (some addresses) (some existing)
        (some generated) baseChain = some true ↔
      (addresses = sortStr (cfg.config.map (fun p => p.1)) ∧
        sortStr ((chainRules existing baseChain).getD []) =
          sortStr ((chainRules generated baseChain).getD []))) := by
  refine ⟨rfl, ?_⟩
  simp only [checkConfigParity, Option.some.injEq, Bool.and_eq_true, beq_iff_eq]
  exact ⟨fun h => ⟨h.1.symm, h.2⟩, fun h => ⟨h.1.symm, h.2⟩⟩

/-- C2.  The render loop only guards the index `i == len(serviceAddrs)`;
with two or more excess ports the next iteration indexes
`serviceAddrs[i]` out of range and panics (`none`), instead of dropping
the excess port with a warning as the claim states.  With exactly one
excess port the guard fires and the zero-valued entry is kept. -/
theorem c2_render_out_of_range :
    render ["10.0.0.1:80"] "fd00::1" [80, 443, 8080] = none ∧
    render ["10.0.0.1:80"] "fd00::1" [80, 443] =
      some [⟨80, "fd00::1", "10.0.0.1:80"⟩, zeroContext] := by
  decide

/-- C8.  `GetRemovals(desired)` is exactly the set difference of the
configured listen addresses and the desired list: membership in the
result is equivalent to being a configured source address that is absent
from the desired addresses. -/
theorem c8_getRemovals_set_difference (s : HAProxySetState)
    (v6addrs : List String) (a : String) :
    a ∈ getRemovals s v6addrs ↔
      a ∈ s.sources.map (fun p => p.1) ∧ a ∉ v6addrs := by
  simp [getRemovals, List.mem_filter]

/-- C9.  `sendError` is a non-blocking send on the bounded error channel:
it enqueues the message exactly when the buffer is below capacity and
panics exactly when the channel is full — in particular it always returns
(never blocks), and the channel allocated by `NewHAProxySet` has capacity
100. -/
theorem c9_sendError_nonblocking (c : ErrChan) (m : HAProxyError) :
    (c.buf.length < c.capacity →
      sendError c m = .sent ⟨c.capacity, c.buf ++ [m]⟩) ∧
    (c.capacity ≤ c.buf.length → sendError c m = .panicked) ∧
    newHAProxySetErrChan.capacity = 100 := by
  refine ⟨fun h => ?_, fun h => ?_, rfl⟩
  · simp [sendError, chanTrySend, h]
  · simp [sendError, chanTrySend, Nat.not_lt.mpr h]

/-- C9, witness: on the freshly allocated channel the send is delivered;
on a zero-capacity channel it panics. -/
theorem c9_sendError_nonblocking_witness :
    sendError newHAProxySetErrChan ⟨"fd00::1", [], []⟩ =
      .sent ⟨100, [⟨"fd00::1", [], []⟩]⟩ ∧
    sendError ⟨0, []⟩ ⟨"fd00::1", [], []⟩ = .panicked :=
  ⟨(c9_sendError_nonblocking newHAProxySetErrChan ⟨"fd00::1", [], []⟩).1
      (by decide),
    (c9_sendError_nonblocking ⟨0, []⟩ ⟨"fd00::1", [], []⟩).2.1 (by decide)⟩

/-- Updating a key and looking it up yields the stored value. -/
lemma lookupAssoc_update {α : Type} (l : List (String × α)) (a : String)
    (v : α) : lookupAssoc (updateAssoc l a v) a = some v := by
  induction l with
  | nil => simp [updateAssoc, lookupAssoc]
  | cons p rest ih =>
    obtain ⟨k, w⟩ := p
    by_cases hk : k = a
    · simp [updateAssoc, hk, lookupAssoc]
    · simpa [updateAssoc, hk, lookupAssoc, List.find?] using ih

/-- Writing back the value a key already holds leaves the map
unchanged. -/
lemma updateAssoc_lookup_self {α : Type} (l : List (String × α))
    (a : String) (v : α) (h : lookupAssoc l a = some v) :
    updateAssoc l a v = l := by
  induction l with
  | nil => simp [lookupAssoc] at h
  | cons p rest ih =>
    obtain ⟨k, w⟩ := p
    by_cases hk : k = a
    · subst hk
      have hv : w = v := by simpa [lookupAssoc, List.find?] using h
      subst hv
      simp [updateAssoc]
    · have h2 : lookupAssoc rest a = some v := by
        simpa [lookupAssoc, List.find?, hk] using h
      simp [updateAssoc, hk, ih h2]

/-- A successful `Reload(p)` leaves the manager holding exactly the ports
`p`. -/
lemma reload_ok_ports (m : HAProxyManager) (d : List TemplateContext)
    (env : ReloadEnv) (p : List Nat) :
    (reload m d env p).result = .ok → (reload m d env p).mgr.ports = p := by
  by_cases hp : p = m.ports
  · intro _; simp [reload, hp]
  · cases hr : render m.serviceAddrs m.listenAddr p with
    | none => simp [reload, hp, hr]
    | some b =>
      by_cases hw : env.writeOk <;> by_cases hs : env.sighupOk <;>
        simp [reload, hp, hr, hw, hs]

/-- A manager built by `NewHAProxy` holds the requested ports and an empty
`rendered` field (the bootstrap write is not recorded). -/
lemma newHAProxy_fields (a : String) (sa : List String) (p : List Nat)
    (w : Bool) (m : HAProxyManager) (d : List TemplateContext)
    (h : newHAProxy a sa p w = some (m, d)) :
    m.ports = p ∧ m.rendered = [] := by
  unfold newHAProxy at h
  cases hr : render sa a p with
  | none => rw [hr] at h; cases h
  | some b =>
    rw [hr] at h
    by_cases hw : w
    · simp [hw] at h
      obtain ⟨h1, -⟩ := h
      rw [← h1]
      exact ⟨rfl, rfl⟩
    · simp [hw] at h

/-- C3, counterexample.  A manager fresh from `NewHAProxy` has the
bootstrap configuration on disk but an empty in-memory `rendered`.  When
the first `Reload` fails at the SIGHUP step, `unroll` rewrites the empty
`rendered` bytes, so the file no longer holds the previous configuration
bytes (the bootstrap render) — it is truncated to empty instead. -/
theorem c3_unroll_counterexample :
    newHAProxy "fd00::1" ["10.0.0.1:80"] [80] true =
      some (⟨"fd00::1", ["10.0.0.1:80"], [80], []⟩,
        [⟨80, "fd00::1", "10.0.0.1:80"⟩]) ∧
    (reload ⟨"fd00::1", ["10.0.0.1:80"], [80], []⟩
        [⟨80, "fd00::1", "10.0.0.1:80"⟩] ⟨true, false, true⟩ [81]).result =
      .err ∧
    (reload ⟨"fd00::1", ["10.0.0.1:80"], [80], []⟩
        [⟨80, "fd00::1", "10.0.0.1:80"⟩] ⟨true, false, true⟩ [81]).disk = [] ∧
    [(⟨80, "fd00::1", "10.0.0.1:80"⟩ : TemplateContext)] ≠
      ([] : List TemplateContext) := by
  decide

/-- C3, amended.  On every failure path of `Reload` the in-memory `ports`
and `rendered` fields are unchanged; when the SIGHUP step fails (the write
having succeeded) the bytes held in the in-memory `rendered` field — the
last successfully reloaded configuration, empty before any successful
reload since the bootstrap write of `NewHAProxy` is not recorded — are
rewritten to the config file; both fields are updated exactly on
success. -/
theorem c3_reload_unroll (h : HAProxyManager) (disk : List TemplateContext)
    (env : ReloadEnv) (ports : List Nat) (b : List TemplateContext) :
    ((reload h disk env ports).result ≠ .ok →
      (reload h disk env ports).mgr = h) ∧
    (ports ≠ h.ports → render h.serviceAddrs h.listenAddr ports = some b →
      env.writeOk = true → env.sighupOk = false → env.unrollWriteOk = true →
      reload h disk env ports = ⟨h, h.rendered, true, .err⟩) ∧
    (ports ≠ h.ports → render h.serviceAddrs h.listenAddr ports = some b →
      env.writeOk = true → env.sighupOk = true →
      reload h disk env ports =
        ⟨{ h with rendered := b, ports := ports }, b, true, .ok⟩) := by
  refine ⟨?_, fun h1 h2 h3 h4 h5 => ?_, fun h1 h2 h3 h4 => ?_⟩
  · by_cases hp : ports = h.ports
    · intro _; simp [reload, hp]
    · cases hr : render h.serviceAddrs h.listenAddr ports with
      | none => intro _; simp [reload, hp, hr]
      | some c =>
        by_cases hw : env.writeOk <;> by_cases hs : env.sighupOk <;>
          simp [reload, hp, hr, hw, hs]
  · simp [reload, h1, h2, h3, h4, h5]
  · simp [reload, h1, h2, h3, h4]

/-- C3, witness: a manager that has successfully reloaded ports [80]
fails the SIGHUP on a reload to [81]; the file is rewritten with the
`rendered` bytes (here the port-80 configuration) and the manager fields
stay put. -/
theorem c3_reload_unroll_witness :
    reload ⟨"fd00::1", ["10.0.0.1:80"], [80], [⟨80, "fd00::1", "10.0.0.1:80"⟩]⟩
        [⟨80, "fd00::1", "10.0.0.1:80"⟩] ⟨true, false, true⟩ [81] =
      ⟨⟨"fd00::1", ["10.0.0.1:80"], [80], [⟨80, "fd00::1", "10.0.0.1:80"⟩]⟩,
        [⟨80, "fd00::1", "10.0.0.1:80"⟩], true, .err⟩ :=
  (c3_reload_unroll
      ⟨"fd00::1", ["10.0.0.1:80"], [80], [⟨80, "fd00::1", "10.0.0.1:80"⟩]⟩
      [⟨80, "fd00::1", "10.0.0.1:80"⟩] ⟨true, false, true⟩ [81]
      [⟨81, "fd00::1", "10.0.0.1:80"⟩]).2.1
    (by decide) (by decide) rfl rfl rfl

/-- C4.  Reloading with the instance's current ports is a no-op — the
manager, the file on disk and the signal state are untouched and no SIGHUP
delivery is attempted — and consequently, after a successful
`HAProxySet.Configure(v)`, a second `Configure` for the same address with
identical listen ports sends no SIGHUP and changes nothing. -/
theorem c4_reload_noop (h : HAProxyManager) (disk : List TemplateContext)
    (env : ReloadEnv) (s : HAProxySetState) (env1 env2 : ReloadEnv)
    (v v2 : VIPConfig) (hok : (configureSet s env1 v).result = .ok)
    (haddr : v2.addr6 = v.addr6) (hports : v2.listenPorts = v.listenPorts) :
    reload h disk env h.ports = ⟨h, disk, false, .ok⟩ ∧
    configureSet (configureSet s env1 v).set env2 v2 =
      ⟨(configureSet s env1 v).set, false, .ok⟩ := by
  constructor
  · simp [reload]
  · have key : ∃ m d,
        lookupAssoc (configureSet s env1 v).set.sources v.addr6 =
          some (m, d) ∧ m.ports = v.listenPorts := by
      cases hl0 : lookupAssoc s.sources v.addr6 with
      | some md =>
        obtain ⟨m0, d0⟩ := md
        refine ⟨(reload m0 d0 env1 v.listenPorts).mgr,
          (reload m0 d0 env1 v.listenPorts).disk, ?_, ?_⟩
        · simp [configureSet, hl0, lookupAssoc_update]
        · apply reload_ok_ports
          simpa [configureSet, hl0] using hok
      | none =>
        cases hn : newHAProxy v.addr6 v.serviceAddrs v.listenPorts
            env1.writeOk with
        | none => simp [configureSet, hl0, hn] at hok
        | some md =>
          obtain ⟨m0, d0⟩ := md
          have hp0 : m0.ports = v.listenPorts :=
            (newHAProxy_fields _ _ _ _ _ _ hn).1
          have hre : reload m0 d0 env1 v.listenPorts = ⟨m0, d0, false, .ok⟩ := by
            simp [reload, hp0.symm]
          refine ⟨m0, d0, ?_, hp0⟩
          simp [configureSet, hl0, hn, hre, lookupAssoc_update]
    obtain ⟨m, d, hl, hp⟩ := key
    have hre2 : reload m d env2 v2.listenPorts = ⟨m, d, false, .ok⟩ := by
      simp [reload, hports.trans hp.symm]
    have hupd := updateAssoc_lookup_self
      (configureSet s env1 v).set.sources v.addr6 (m, d) hl
    generalize hG : (configureSet s env1 v).set = S at hl hupd ⊢
    simp [configureSet, haddr, hl, hre2, hupd]

/-- The director's `configure` never touches the flag, the inbound
timestamp or the clock, and either leaves `lastReconfigure` alone or sets
it to the attempt's time. -/
lemma dirConfigure_frame (t : Nat) (env : DirEnv) (s : DirState) :
    (dirConfigure t env s).1.newConfig = s.newConfig ∧
    (dirConfigure t env s).1.lastInboundUpdate = s.lastInboundUpdate ∧
    (dirConfigure t env s).1.now = s.now ∧
    ((dirConfigure t env s).1.lastReconfigure = s.lastReconfigure ∨
      (dirConfigure t env s).1.lastReconfigure = t) := by
  cases hc : s.config with
  | none => simp [dirConfigure, hc]
  | some cfg =>
    by_cases h1 :
        (setAddressesOn env.getOk env.compare env.delOk env.addOk
          s.loopback cfg).2 <;>
      by_cases h2 : env.bgpOk <;> by_cases h3 : env.ipvsOk <;>
        simp [dirConfigure, hc, h1, h2, h3]

/-- `performReconfigure` never touches the inbound timestamp or the clock,
and either leaves `lastReconfigure` alone or sets it to the tick's
time. -/
lemma performReconfigure_cases (t : Nat) (env : DirEnv) (s : DirState) :
    ((performReconfigure t env s).1.lastReconfigure = s.lastReconfigure ∨
      (performReconfigure t env s).1.lastReconfigure = t) ∧
    (performReconfigure t env s).1.lastInboundUpdate = s.lastInboundUpdate ∧
    (performReconfigure t env s).1.now = s.now := by
  by_cases h1 : s.lastInboundUpdate < s.lastReconfigure
  · simp [performReconfigure, h1]
  · by_cases h2 : env.getOk
    · cases hp : env.parity with
      | none => simp [performReconfigure, h1, h2, hp]
      | some bb =>
        cases bb with
        | true => simp [performReconfigure, h1, h2, hp]
        | false =>
          have hf := dirConfigure_frame t env { s with newConfig := false }
          simp [performReconfigure, h1, h2, hp]
          refine ⟨?_, by simpa using hf.2.1, by simpa using hf.2.2.1⟩
          rcases hf.2.2.2 with h3 | h3
          · left; simpa using h3
          · right; exact h3
    · simp [performReconfigure, h1, h2]

/-- Each director step stamps the clock with the event's time. -/
lemma dirStep_now (q : NodesList → NodesList → Bool) (s : DirState)
    (e : DirEvent) : (dirStep q s e).1.now = e.time := by
  cases e with
  | recvNodes t nodes =>
    by_cases hq : q s.nodes nodes <;> simp [dirStep, hq, DirEvent.time]
  | recvConfig t cfg => simp [dirStep, DirEvent.time]
  | bgpTick t env => simp [dirStep, DirEvent.time]
  | forceTick t env => simp [dirStep, DirEvent.time]

/-- With a monotone clock, a director step keeps `lastReconfigure` below
the event's time. -/
lemma dirStep_inv (q : NodesList → NodesList → Bool) (s : DirState)
    (e : DirEvent) (h : s.lastReconfigure ≤ s.now) (ht : s.now ≤ e.time) :
    (dirStep q s e).1.lastReconfigure ≤ e.time := by
  cases e with
  | recvNodes t nodes =>
    simp only [DirEvent.time] at ht
    by_cases hq : q s.nodes nodes <;> simp [dirStep, hq, DirEvent.time] <;>
      omega
  | recvConfig t cfg =>
    simp only [DirEvent.time] at ht
    simp [dirStep, DirEvent.time]; omega
  | bgpTick t env =>
    have hpc := (performReconfigure_cases t env s).1
    simp only [dirStep, DirEvent.time] at *
    rcases hpc with h2 | h2 <;> simp [h2] <;> omega
  | forceTick t env =>
    have hdc := (dirConfigure_frame t env s).2.2.2
    simp only [dirStep, DirEvent.time] at *
    rcases hdc with h2 | h2 <;> simp [h2] <;> omega

/-- Running a trace and then one event is a step on the run. -/
lemma dirRun_append (q : NodesList → NodesList → Bool) (s : DirState)
    (es : List DirEvent) (e : DirEvent) :
    dirRun q s (es ++ [e]) = (dirStep q (dirRun q s es) e).1 := by
  induction es generalizing s with
  | nil => rfl
  | cons e0 es ih => simp [dirRun, ih]

/-- Along a chronological trace, `lastReconfigure` stays below the time
of the next event. -/
lemma dirRun_inv_last (q : NodesList → NodesList → Bool) :
    ∀ (es : List DirEvent) (s : DirState) (e : DirEvent),
      s.lastReconfigure ≤ s.now → dirChron s.now (es ++ [e]) →
      (dirRun q s es).lastReconfigure ≤ e.time := by
  intro es
  induction es with
  | nil =>
    intro s e h hc
    exact le_trans h hc.1
  | cons e0 es ih =>
    intro s e h hc
    obtain ⟨h1, h2⟩ := hc
    have hs : (dirStep q s e0).1.lastReconfigure ≤ (dirStep q s e0).1.now := by
      rw [dirStep_now]; exact dirStep_inv q s e0 h h1
    have hnow : (dirStep q s e0).1.now = e0.time := dirStep_now q s e0
    have := ih (dirStep q s e0).1 e hs (by rw [hnow]; exact h2)
    simpa [dirRun] using this

/-- An accepted inbound update stamps `lastInboundUpdate` with the event
time and leaves `lastReconfigure` alone. -/
lemma dirStep_accepted (q : NodesList → NodesList → Bool) (s : DirState)
    (e : DirEvent) (ha : dirAccepted q s e) :
    (dirStep q s e).1.lastInboundUpdate = e.time ∧
    (dirStep q s e).1.lastReconfigure = s.lastReconfigure := by
  cases e with
  | recvConfig t cfg => simp [dirStep, DirEvent.time]
  | recvNodes t nodes =>
    have hq : q s.nodes nodes = false := ha
    simp [dirStep, hq, DirEvent.time]
  | bgpTick t env => exact ha.elim
  | forceTick t env => exact ha.elim

/-- `rsConfigureBody` touches only the loopback world state: the worker's
bookkeeping fields are untouched. -/
lemma rsConfigureBody_frame (s : RealState) (env : RsEnv) :
    (rsConfigureBody s env).1.lastReconfigure = s.lastReconfigure ∧
    (rsConfigureBody s env).1.lastInboundUpdate = s.lastInboundUpdate ∧
    (rsConfigureBody s env).1.config = s.config ∧
    (rsConfigureBody s env).1.node = s.node ∧
    (rsConfigureBody s env).1.now = s.now := by
  cases hc : s.config with
  | none => simp [rsConfigureBody, hc]
  | some cfg =>
    by_cases h1 :
        (setAddressesOn env.getOk env.compare env.delOk env.addOk
          s.loopback cfg).2 <;>
      cases hs : env.saveResult <;> cases hg : env.generateResult <;>
        cases hm : env.mergeResult <;> by_cases hr : env.restoreOk <;>
          simp [rsConfigureBody, hc, h1, hs, hg, hm, hr]

/-- `rsConfigure` never writes `lastReconfigure` (nor the other
bookkeeping fields). -/
lemma rsConfigure_frame (force : Bool) (s : RealState) (env : RsEnv) :
    (rsConfigure force s env).1.lastReconfigure = s.lastReconfigure ∧
    (rsConfigure force s env).1.lastInboundUpdate = s.lastInboundUpdate ∧
    (rsConfigure force s env).1.config = s.config ∧
    (rsConfigure force s env).1.node = s.node ∧
    (rsConfigure force s env).1.now = s.now := by
  by_cases hf : force
  · simpa [rsConfigure, hf] using rsConfigureBody_frame s env
  · cases hp : checkConfigParity s.config
        (if env.getOk then some s.loopback else none)
        env.saveResult env.generateParityResult env.baseChain with
    | none => simp [rsConfigure, hf, hp]
    | some bb =>
      cases bb with
      | true => simp [rsConfigure, hf, hp]
      | false => simpa [rsConfigure, hf, hp] using rsConfigureBody_frame s env

/-- Each realserver step stamps the clock with the event's time. -/
lemma rsStep_now (q : Node → Node → Bool) (fr : Bool) (nm : String)
    (s : RealState) (e : RsEvent) : (rsStep q fr nm s e).now = e.time := by
  cases e with
  | recvNodes t nodes =>
    cases hf : nodes.find? (fun n => n.name = nm) with
    | none => simp [rsStep, hf, RsEvent.time]
    | some n => by_cases hq : q s.node n <;> simp [rsStep, hf, hq, RsEvent.time]
  | recvConfig t cfg => simp [rsStep, RsEvent.time]
  | fastTick t env =>
    by_cases h1 : s.lastInboundUpdate < s.lastReconfigure
    · simp [rsStep, h1, RsEvent.time]
    · by_cases h2 : s.config = none ∨ s.node.name = ""
      · simp [rsStep, h1, h2, RsEvent.time]
      · by_cases h3 : (rsConfigure false s env).2 = .ok <;>
          simp [rsStep, h1, h2, h3, RsEvent.time]
  | slowTick t env => simp [rsStep, RsEvent.time]
  | forceTick t env => by_cases hfr : fr <;> simp [rsStep, hfr, RsEvent.time]

/-- With a monotone clock, a realserver step keeps `lastReconfigure`
below the event's time. -/
lemma rsStep_inv (q : Node → Node → Bool) (fr : Bool) (nm : String)
    (s : RealState) (e : RsEvent) (h : s.lastReconfigure ≤ s.now)
    (ht : s.now ≤ e.time) : (rsStep q fr nm s e).lastReconfigure ≤ e.time := by
  cases e with
  | recvNodes t nodes =>
    simp only [RsEvent.time] at ht
    cases hf : nodes.find? (fun n => n.name = nm) with
    | none => simp [rsStep, hf, RsEvent.time]; omega
    | some n =>
      by_cases hq : q s.node n <;> simp [rsStep, hf, hq, RsEvent.time] <;> omega
  | recvConfig t cfg =>
    simp only [RsEvent.time] at ht
    simp [rsStep, RsEvent.time]; omega
  | fastTick t env =>
    simp only [RsEvent.time] at ht
    by_cases h1 : s.lastInboundUpdate < s.lastReconfigure
    · simp [rsStep, h1, RsEvent.time]; omega
    · by_cases h2 : s.config = none ∨ s.node.name = ""
      · simp [rsStep, h1, h2, RsEvent.time]; omega
      · have hfr := (rsConfigure_frame false s env).1
        by_cases h3 : (rsConfigure false s env).2 = .ok <;>
          simp [rsStep, h1, h2, h3, hfr, RsEvent.time] <;> omega
  | slowTick t env =>
    simp only [RsEvent.time] at ht
    have hfr := (rsConfigure_frame false s env).1
    simp [rsStep, hfr, RsEvent.time]; omega
  | forceTick t env =>
    simp only [RsEvent.time] at ht
    have hfr2 := (rsConfigure_frame true s env).1
    by_cases hfr : fr <;> simp [rsStep, hfr, hfr2, RsEvent.time] <;> omega

/-- Running a realserver trace and then one event is a step on the run. -/
lemma rsRun_append (q : Node → Node → Bool) (fr : Bool) (nm : String)
    (s : RealState) (es : List RsEvent) (e : RsEvent) :
    rsRun q fr nm s (es ++ [e]) = rsStep q fr nm (rsRun q fr nm s es) e := by
  induction es generalizing s with
  | nil => rfl
  | cons e0 es ih => simp [rsRun, ih]

/-- Along a chronological realserver trace, `lastReconfigure` stays below
the time of the next event. -/
lemma rsRun_inv_last (q : Node → Node → Bool) (fr : Bool) (nm : String) :
    ∀ (es : List RsEvent) (s : RealState) (e : RsEvent),
      s.lastReconfigure ≤ s.now → rsChron s.now (es ++ [e]) →
      (rsRun q fr nm s es).lastReconfigure ≤ e.time := by
  intro es
  induction es with
  | nil =>
    intro s e h hc
    exact le_trans h hc.1
  | cons e0 es ih =>
    intro s e h hc
    obtain ⟨h1, h2⟩ := hc
    have hs : (rsStep q fr nm s e0).lastReconfigure ≤
        (rsStep q fr nm s e0).now := by
      rw [rsStep_now]; exact rsStep_inv q fr nm s e0 h h1
    have hnow : (rsStep q fr nm s e0).now = e0.time := rsStep_now q fr nm s e0
    have := ih (rsStep q fr nm s e0) e hs (by rw [hnow]; exact h2)
    simpa [rsRun] using this

/-- An accepted realserver inbound update stamps `lastInboundUpdate` with
the event time and leaves `lastReconfigure` alone. -/
lemma rsStep_accepted (q : Node → Node → Bool) (fr : Bool) (nm : String)
    (s : RealState) (e : RsEvent) (ha : rsAccepted q nm s e) :
    (rsStep q fr nm s e).lastInboundUpdate = e.time ∧
    (rsStep q fr nm s e).lastReconfigure = s.lastReconfigure := by
  cases e with
  | recvConfig t cfg => simp [rsStep, RsEvent.time]
  | recvNodes t nodes =>
    obtain ⟨n, hf, hq⟩ := ha
    simp [rsStep, hf, hq, RsEvent.time]
  | fastTick t env => exact ha.elim
  | slowTick t env => exact ha.elim
  | forceTick t env => exact ha.elim

/-- C6.  Immediately after the watches loop of either worker consumes an
accepted config or node update, the skip-condition
`lastReconfigure > lastInboundUpdate` does not hold: the update stamps
`lastInboundUpdate` with the current time, which the monotone clock keeps
at or above any previously recorded `lastReconfigure`. -/
theorem c6_no_skip_after_update
    (qd : NodesList → NodesList → Bool) (qr : Node → Node → Bool)
    (fr : Bool) (nm : String)
    (esd : List DirEvent) (ed : DirEvent) (esr : List RsEvent) (er : RsEvent)
    (hcd : dirChron dirInit.now (esd ++ [ed]))
    (had : dirAccepted qd (dirRun qd dirInit esd) ed)
    (hcr : rsChron rsInit.now (esr ++ [er]))
    (har : rsAccepted qr nm (rsRun qr fr nm rsInit esr) er) :
    ¬ ((dirRun qd dirInit (esd ++ [ed])).lastInboundUpdate <
        (dirRun qd dirInit (esd ++ [ed])).lastReconfigure) ∧
    ¬ ((rsRun qr fr nm rsInit (esr ++ [er])).lastInboundUpdate <
        (rsRun qr fr nm rsInit (esr ++ [er])).lastReconfigure) := by
  constructor
  · rw [dirRun_append]
    have hinv := dirRun_inv_last qd esd dirInit ed (Nat.le_refl 0) hcd
    obtain ⟨hA, hB⟩ := dirStep_accepted qd (dirRun qd dirInit esd) ed had
    rw [hA, hB]
    omega
  · rw [rsRun_append]
    have hinv := rsRun_inv_last qr fr nm esr rsInit er (Nat.le_refl 0) hcr
    obtain ⟨hA, hB⟩ := rsStep_accepted qr fr nm (rsRun qr fr nm rsInit esr) er har
    rw [hA, hB]
    omega

/-- C6, witness: a single config arrival at time 3 (director) and time 4
(realserver) leaves both workers with the skip-condition false. -/
theorem c6_no_skip_after_update_witness :
    ¬ ((dirRun (fun _ _ => false) dirInit
        ([] ++ [DirEvent.recvConfig 3 ⟨[], [], []⟩])).lastInboundUpdate <
      (dirRun (fun _ _ => false) dirInit
        ([] ++ [DirEvent.recvConfig 3 ⟨[], [], []⟩])).lastReconfigure) ∧
    ¬ ((rsRun (fun _ _ => false) false "n1" rsInit
        ([] ++ [RsEvent.recvConfig 4 ⟨[], [], []⟩])).lastInboundUpdate <
      (rsRun (fun _ _ => false) false "n1" rsInit
        ([] ++ [RsEvent.recvConfig 4 ⟨[], [], []⟩])).lastReconfigure) :=
  c6_no_skip_after_update (fun _ _ => false) (fun _ _ => false) false "n1"
    [] (DirEvent.recvConfig 3 ⟨[], [], []⟩)
    [] (RsEvent.recvConfig 4 ⟨[], [], []⟩)
    ⟨by decide, trivial⟩ trivial ⟨by decide, trivial⟩ trivial

/-- C7.  In the director's `configure`, any sub-step error aborts the
attempt without advancing `lastReconfigure`; in particular when
`setAddresses` succeeded and `bgp.Set` fails, the call returns an error
with the loopback address changes (removals and additions) already applied
and left in place, and nothing else changed. -/
theorem c7_configure_error_abort (t : Nat) (env : DirEnv) (s : DirState)
    (cfg : ClusterConfig) (hc : s.config = some cfg) :
    ((dirConfigure t env s).2 ≠ .ok →
      (dirConfigure t env s).1.lastReconfigure = s.lastReconfigure) ∧
    ((setAddressesOn env.getOk env.compare env.delOk env.addOk
        s.loopback cfg).2 = true →
      env.bgpOk = false →
      dirConfigure t env s =
        ({ s with loopback :=
            (setAddressesOn env.getOk env.compare env.delOk env.addOk
              s.loopback cfg).1 }, .err)) := by
  constructor
  · intro hne
    by_cases h1 :
        (setAddressesOn env.getOk env.compare env.delOk env.addOk
          s.loopback cfg).2 <;>
      by_cases h2 : env.bgpOk <;> by_cases h3 : env.ipvsOk
    · exact absurd (show (dirConfigure t env s).2 = .ok by
        simp [dirConfigure, hc, h1, h2, h3]) hne
    all_goals simp [dirConfigure, hc, h1, h2, h3]
  · intro h1 h2
    simp [dirConfigure, hc, h1, h2]

/-- C7, witness: a director holding one VIP whose BGP Set fails — the
loopback addition is applied and kept, the outcome is an error, and
`lastReconfigure` stays at its old value. -/
theorem c7_configure_error_abort_witness :
    dirConfigure 5
        ⟨true, some false, fun _ _ => ([], ["10.10.0.1"]), fun _ => true,
          fun _ => true, false, true⟩
        ⟨some ⟨[("10.10.0.1", [])], [], []⟩, [], false, 3, 0, 3, []⟩ =
      (⟨some ⟨[("10.10.0.1", [])], [], []⟩, [], false, 3, 0, 3,
          ["10.10.0.1"]⟩, .err) :=
  (c7_configure_error_abort 5
      ⟨true, some false, fun _ _ => ([], ["10.10.0.1"]), fun _ => true,
        fun _ => true, false, true⟩
      ⟨some ⟨[("10.10.0.1", [])], [], []⟩, [], false, 3, 0, 3, []⟩
      ⟨[("10.10.0.1", [])], [], []⟩ rfl).2 (by decide) rfl

/-- C10.  In the realserver, `configure` itself never writes
`lastReconfigure`, and across every periodic arm only the 100 ms fast
tick advances it — and only when the throttle and readiness gates pass
and `configure(false)` returns success, in which case it is set to the
tick's start time.  The 60 s and 10 min arms leave it unchanged even when
their configure call succeeds. -/
theorem c10_lastReconfigure_only_fast_tick (q : Node → Node → Bool)
    (fr : Bool) (nm : String) (s : RealState) (e : RsEvent) (force : Bool)
    (env : RsEnv) :
    (rsConfigure force s env).1.lastReconfigure = s.lastReconfigure ∧
    ((rsStep q fr nm s e).lastReconfigure ≠ s.lastReconfigure →
      ∃ t env2, e = .fastTick t env2 ∧
        (rsStep q fr nm s e).lastReconfigure = t ∧
        ¬ s.lastInboundUpdate < s.lastReconfigure ∧
        s.config ≠ none ∧ s.node.name ≠ "" ∧
        (rsConfigure false s env2).2 = .ok) := by
  refine ⟨(rsConfigure_frame force s env).1, ?_⟩
  intro hne
  cases e with
  | recvNodes t nodes =>
    exfalso; apply hne
    cases hf : nodes.find? (fun n => n.name = nm) with
    | none => simp [rsStep, hf]
    | some n => by_cases hq : q s.node n <;> simp [rsStep, hf, hq]
  | recvConfig t cfg => exfalso; apply hne; simp [rsStep]
  | slowTick t env2 =>
    exfalso; apply hne
    simp [rsStep, (rsConfigure_frame false s env2).1]
  | forceTick t env2 =>
    exfalso; apply hne
    by_cases hfr : fr <;> simp [rsStep, hfr, (rsConfigure_frame true s env2).1]
  | fastTick t env2 =>
    by_cases h1 : s.lastInboundUpdate < s.lastReconfigure
    · exact absurd (by simp [rsStep, h1]) hne
    · by_cases h2 : s.config = none ∨ s.node.name = ""
      · exact absurd (by simp [rsStep, h1, h2]) hne
      · by_cases h3 : (rsConfigure false s env2).2 = .ok
        · refine ⟨t, env2, rfl, by simp [rsStep, h1, h2, h3], h1, ?_, ?_, h3⟩
          · exact fun hn => h2 (Or.inl hn)
          · exact fun hn => h2 (Or.inr hn)
        · exact absurd
            (by simp [rsStep, h1, h2, h3, (rsConfigure_frame false s env2).1])
            hne

/-- C10, witness: a realserver with a pending inbound update and parity
holding takes the fast tick at time 7 and records `lastReconfigure = 7`,
which the theorem attributes to the fast-tick success path. -/
theorem c10_lastReconfigure_only_fast_tick_witness :
    (rsStep (fun _ _ => false) false "n1"
        ⟨some ⟨[], [], []⟩, ⟨"n1", [], true⟩, 5, 0, 5, []⟩
        (RsEvent.fastTick 7
          ⟨true, some [], some [], some [], some ([], 0), true, "RAVEL",
            fun _ _ => ([], []), fun _ => true, fun _ => true⟩)).lastReconfigure ≠
      (0 : Nat) ∧
    (∃ t env2,
      RsEvent.fastTick 7
          (⟨true, some [], some [], some [], some ([], 0), true, "RAVEL",
            fun _ _ => ([], []), fun _ => true, fun _ => true⟩ : RsEnv) =
        .fastTick t env2 ∧
      (rsStep (fun _ _ => false) false "n1"
          ⟨some ⟨[], [], []⟩, ⟨"n1", [], true⟩, 5, 0, 5, []⟩
          (RsEvent.fastTick 7
            ⟨true, some [], some [], some [], some ([], 0), true, "RAVEL",
              fun _ _ => ([], []), fun _ => true, fun _ => true⟩)).lastReconfigure = t ∧
      ¬ (5 : Nat) < 0 ∧
      (some (⟨[], [], []⟩ : ClusterConfig) : Option ClusterConfig) ≠ none ∧
      (Node.mk "n1" [] true).name ≠ "" ∧
      (rsConfigure false ⟨some ⟨[], [], []⟩, ⟨"n1", [], true⟩, 5, 0, 5, []⟩
        env2).2 = .ok) :=
  ⟨by decide,
    (c10_lastReconfigure_only_fast_tick (fun _ _ => false) false "n1"
        ⟨some ⟨[], [], []⟩, ⟨"n1", [], true⟩, 5, 0, 5, []⟩
        (RsEvent.fastTick 7
          ⟨true, some [], some [], some [], some ([], 0), true, "RAVEL",
            fun _ _ => ([], []), fun _ => true, fun _ => true⟩)
        false
        ⟨true, some [], some [], some [], some ([], 0), true, "RAVEL",
          fun _ _ => ([], []), fun _ => true, fun _ => true⟩).2
      (by decide)⟩

/-- C4, witness: configuring a fresh set for VIP fd00::1 with ports [80]
succeeds, and repeating the identical Configure leaves the set unchanged
with no SIGHUP. -/
theorem c4_reload_noop_witness :
    (configureSet ⟨[]⟩ ⟨true, true, true⟩
        ⟨"fd00::1", ["10.0.0.1:80"], [80], []⟩).result = .ok ∧
    configureSet
        (configureSet ⟨[]⟩ ⟨true, true, true⟩
          ⟨"fd00::1", ["10.0.0.1:80"], [80], []⟩).set
        ⟨true, true, true⟩ ⟨"fd00::1", ["10.0.0.1:80"], [80], []⟩ =
      ⟨(configureSet ⟨[]⟩ ⟨true, true, true⟩
          ⟨"fd00::1", ["10.0.0.1:80"], [80], []⟩).set, false, .ok⟩ :=
  ⟨by decide,
    (c4_reload_noop ⟨"", [], [], []⟩ [] ⟨true, true, true⟩ ⟨[]⟩
        ⟨true, true, true⟩ ⟨true, true, true⟩
        ⟨"fd00::1", ["10.0.0.1:80"], [80], []⟩
        ⟨"fd00::1", ["10.0.0.1:80"], [80], []⟩
        (by decide) rfl rfl).2⟩

/-- When a reached parity check reports `some b`, the observed value is
the flag before the call and the flag is cleared afterwards. -/
lemma performReconfigure_report (t : Nat) (env : DirEnv) (s : DirState)
    (b : Bool) (h : (performReconfigure t env s).2 = some b) :
    b = s.newConfig ∧ (performReconfigure t env s).1.newConfig = false := by
  by_cases h1 : s.lastInboundUpdate < s.lastReconfigure
  · simp [performReconfigure, h1] at h
  · by_cases h2 : env.getOk
    · cases hp : env.parity with
      | none =>
        simp [performReconfigure, h1, h2, hp] at h ⊢
        exact h.symm
      | some bb =>
        cases bb with
        | true =>
          simp [performReconfigure, h1, h2, hp] at h ⊢
          exact h.symm
        | false =>
          have hf := (dirConfigure_frame t env { s with newConfig := false }).1
          simp [performReconfigure, h1, h2, hp] at h ⊢
          exact ⟨h.symm, by simpa using hf⟩
    · simp [performReconfigure, h1, h2] at h

/-- A silent `performReconfigure` (no consumption report) returns the
state unchanged. -/
lemma performReconfigure_silent (t : Nat) (env : DirEnv) (s : DirState)
    (h : (performReconfigure t env s).2 = none) :
    (performReconfigure t env s).1 = s := by
  by_cases h1 : s.lastInboundUpdate < s.lastReconfigure
  · simp [performReconfigure, h1]
  · by_cases h2 : env.getOk
    · cases hp : env.parity with
      | none => simp [performReconfigure, h1, h2, hp] at h
      | some bb =>
        cases bb with
        | true => simp [performReconfigure, h1, h2, hp] at h
        | false => simp [performReconfigure, h1, h2, hp] at h
    · simp [performReconfigure, h1, h2]

/-- A consuming director step observes exactly the current flag and leaves
it cleared. -/
lemma dirStep_consume (q : NodesList → NodesList → Bool) (s : DirState)
    (e : DirEvent) (b : Bool) (h : (dirStep q s e).2 = some b) :
    b = s.newConfig ∧ (dirStep q s e).1.newConfig = false := by
  cases e with
  | recvNodes t nodes => by_cases hq : q s.nodes nodes <;> simp [dirStep, hq] at h
  | recvConfig t cfg => simp [dirStep] at h
  | forceTick t env => simp [dirStep] at h
  | bgpTick t env =>
    have h2 : (performReconfigure t env s).2 = some b := by
      simpa [dirStep] using h
    have h3 := performReconfigure_report t env s b h2
    exact ⟨h3.1, by simpa [dirStep] using h3.2⟩

/-- A config arrival reports nothing and sets the flag. -/
lemma dirStep_arrival (q : NodesList → NodesList → Bool) (s : DirState)
    (t : Nat) (cfg : ClusterConfig) :
    (dirStep q s (DirEvent.recvConfig t cfg)).2 = none ∧
    (dirStep q s (DirEvent.recvConfig t cfg)).1.newConfig = true := by
  simp [dirStep]

/-- A step that is neither an arrival nor a consuming check leaves the
flag unchanged. -/
lemma dirStep_silent (q : NodesList → NodesList → Bool) (s : DirState)
    (e : DirEvent) (h : (dirStep q s e).2 = none)
    (hne : ∀ t cfg, e ≠ DirEvent.recvConfig t cfg) :
    (dirStep q s e).1.newConfig = s.newConfig := by
  cases e with
  | recvNodes t nodes => by_cases hq : q s.nodes nodes <;> simp [dirStep, hq]
  | recvConfig t cfg => exact absurd rfl (hne t cfg)
  | forceTick t env => simpa [dirStep] using (dirConfigure_frame t env s).1
  | bgpTick t env =>
    have h2 : (performReconfigure t env s).2 = none := by
      simpa [dirStep] using h
    have h3 := performReconfigure_silent t env s h2
    simp [dirStep, h3]

/-- Shifting the pending-config predicate across one processed event. -/
lemma freshBefore_shift (q : NodesList → NodesList → Bool) (s : DirState)
    (e : DirEvent) (es : List DirEvent) (j' : Nat) :
    freshBefore q s (e :: es) (j' + 1) ↔
      freshBefore q (dirStep q s e).1 es j' := by
  by_cases harr : ∃ t cfg, e = DirEvent.recvConfig t cfg
  · obtain ⟨t, cfg, rfl⟩ := harr
    have hA := dirStep_arrival q s t cfg
    constructor
    · rintro (⟨i, hi, hiarr, hsil⟩ | ⟨hflag, hsil⟩)
      · cases i with
        | zero =>
          right
          exact ⟨hA.2, fun k hk => hsil (k + 1) (Nat.succ_pos k) (by omega)⟩
        | succ i' =>
          left
          exact ⟨i', by omega, hiarr,
            fun k hk1 hk2 => hsil (k + 1) (by omega) (by omega)⟩
      · right
        exact ⟨hA.2, fun k hk => hsil (k + 1) (by omega)⟩
    · rintro (⟨i', hi', hiarr, hsil⟩ | ⟨hflag, hsil⟩)
      · left
        refine ⟨i' + 1, by omega, hiarr, fun k hk1 hk2 => ?_⟩
        cases k with
        | zero => omega
        | succ k2 => exact hsil k2 (by omega) (by omega)
      · left
        refine ⟨0, by omega, ⟨t, cfg, rfl⟩, fun k hk1 hk2 => ?_⟩
        cases k with
        | zero => omega
        | succ k2 => exact hsil k2 (by omega)
  · have hne : ∀ t cfg, e ≠ DirEvent.recvConfig t cfg := fun t cfg hh =>
      harr ⟨t, cfg, hh⟩
    cases hr0 : (dirStep q s e).2 with
    | some c =>
      have hcons := dirStep_consume q s e c hr0
      constructor
      · rintro (⟨i, hi, hiarr, hsil⟩ | ⟨hflag, hsil⟩)
        · cases i with
          | zero =>
            exfalso
            obtain ⟨t, cfg, heq⟩ := hiarr
            exact hne t cfg (by simpa using heq)
          | succ i' =>
            left
            exact ⟨i', by omega, hiarr,
              fun k hk1 hk2 => hsil (k + 1) (by omega) (by omega)⟩
        · exfalso
          have h0 := hsil 0 (Nat.succ_pos j')
          have h1 : (dirReports q s (e :: es)).get? 0 = some (some c) := by
            simp [dirReports, hr0]
          rw [h1] at h0
          simp at h0
      · rintro (⟨i', hi', hiarr, hsil⟩ | ⟨hflag, hsil⟩)
        · left
          refine ⟨i' + 1, by omega, hiarr, fun k hk1 hk2 => ?_⟩
          cases k with
          | zero => omega
          | succ k2 => exact hsil k2 (by omega) (by omega)
        · exfalso
          rw [hcons.2] at hflag
          exact Bool.false_ne_true hflag
    | none =>
      have hflagEq := dirStep_silent q s e hr0 hne
      constructor
      · rintro (⟨i, hi, hiarr, hsil⟩ | ⟨hflag, hsil⟩)
        · cases i with
          | zero =>
            exfalso
            obtain ⟨t, cfg, heq⟩ := hiarr
            exact hne t cfg (by simpa using heq)
          | succ i' =>
            left
            exact ⟨i', by omega, hiarr,
              fun k hk1 hk2 => hsil (k + 1) (by omega) (by omega)⟩
        · right
          exact ⟨hflagEq.trans hflag, fun k hk => hsil (k + 1) (by omega)⟩
      · rintro (⟨i', hi', hiarr, hsil⟩ | ⟨hflag, hsil⟩)
        · left
          refine ⟨i' + 1, by omega, hiarr, fun k hk1 hk2 => ?_⟩
          cases k with
          | zero => omega
          | succ k2 => exact hsil k2 (by omega) (by omega)
        · right
          refine ⟨hflagEq.symm.trans hflag, fun k hk => ?_⟩
          cases k with
          | zero =>
            show (dirReports q s (e :: es)).get? 0 = some none
            simp [dirReports, hr0]
          | succ k2 => exact hsil k2 (by omega)

/-- Characterization of an observed `configReady` value over any trace:
the value read by a reached parity check is true exactly when a fresh
config is pending at that point. -/
lemma c5_aux (q : NodesList → NodesList → Bool) :
    ∀ (es : List DirEvent) (s : DirState) (j : Nat) (b : Bool),
      (dirReports q s es).get? j = some (some b) →
      (b = true ↔ freshBefore q s es j) := by
  intro es
  induction es with
  | nil => intro s j b hj; simp [dirReports] at hj
  | cons e es ih =>
    intro s j b hj
    cases j with
    | zero =>
      have h0 : (dirStep q s e).2 = some b := by
        simpa [dirReports] using hj
      obtain ⟨hb, -⟩ := dirStep_consume q s e b h0
      constructor
      · intro h1
        right
        refine ⟨by rw [← hb]; exact h1, fun k hk => ?_⟩
        exact absurd hk (Nat.not_lt_zero k)
      · rintro (⟨i, hi, -, -⟩ | ⟨hs, -⟩)
        · exact absurd hi (Nat.not_lt_zero i)
        · rw [hb]; exact hs
    | succ j' =>
      have hj' : (dirReports q (dirStep q s e).1 es).get? j' = some (some b) :=
        hj
      rw [ih (dirStep q s e).1 j' b hj']
      exact (freshBefore_shift q s e es j').symm

/-- C5.  The director's `newConfig` flag is a one-shot: it is set by every
config receive in `watches` and cleared exactly when `configReady()` is
consumed by a reached parity check; consequently, starting with the flag
clear, a parity check observes `configReady = true` exactly when some
config arrival occurred with no other parity check consuming the flag in
between — so each fresh config forces exactly the next reached parity
check (and no later one) to observe it, a reconcile trigger even when all
derived state matches. -/
theorem c5_configReady_one_shot (q : NodesList → NodesList → Bool)
    (s0 : DirState) (es : List DirEvent) (j : Nat) (b : Bool)
    (h0 : s0.newConfig = false)
    (hj : (dirReports q s0 es).get? j = some (some b)) :
    b = true ↔ ∃ i, i < j ∧ arrivalAt es i ∧ silentBetween q s0 es i j := by
  rw [c5_aux q es s0 j b hj]
  unfold freshBefore
  simp [h0]

/-- C5, witness: from a clean start, a config arrival at time 1 followed
by a 2 s tick at time 2 makes the tick's parity check observe
`configReady = true`, exhibited through the theorem. -/
theorem c5_configReady_one_shot_witness :
    dirInit.newConfig = false ∧
    (dirReports (fun _ _ => false) dirInit
        [DirEvent.recvConfig 1 ⟨[], [], []⟩,
          DirEvent.bgpTick 2
            ⟨true, some true, fun _ _ => ([], []), fun _ => true,
              fun _ => true, true, true⟩]).get? 1 = some (some true) ∧
    (∃ i, i < 1 ∧
      arrivalAt
        [DirEvent.recvConfig 1 ⟨[], [], []⟩,
          DirEvent.bgpTick 2
            ⟨true, some true, fun _ _ => ([], []), fun _ => true,
              fun _ => true, true, true⟩] i ∧
      silentBetween (fun _ _ => false) dirInit
        [DirEvent.recvConfig 1 ⟨[], [], []⟩,
          DirEvent.bgpTick 2
            ⟨true, some true, fun _ _ => ([], []), fun _ => true,
              fun _ => true, true, true⟩] i 1) :=
  ⟨rfl, by decide,
    (c5_configReady_one_shot (fun _ _ => false) dirInit
        [DirEvent.recvConfig 1 ⟨[], [], []⟩,
          DirEvent.bgpTick 2
            ⟨true, some true, fun _ _ => ([], []), fun _ => true,
              fun _ => true, true, true⟩] 1 true rfl (by decide)).mp rfl⟩

end Ravel
